import Mathlib

/-!
A shallow embedding of the OmniLex-OCR core (`types.ts`,
`services/docxService.ts`, `services/geminiService.ts`, and the selection
handlers of `App.tsx`), with theorems checking the specification's claims.

Modelling conventions:
* JavaScript numbers holding box coordinates are modelled as `Int`, table
  grid indices as `Nat`; the fractional column width `100 / (maxCol + 1)`
  and the `* 0.5` image scaling are modelled as `Rat`.
* Optional booleans (`isSelected?`, `isBold?`) are modelled as `Bool` with
  `undefined ↦ false`: the source only ever reads them truthily
  (`filter(b => b.isSelected)`, `!block.isSelected`, `block.isBold`).
* `Array.prototype.sort` with a comparator is stable in JavaScript and is
  modelled as a stable insertion sort driven by the same comparator: on every
  input where the comparator is consistent (the only case in which ECMAScript
  defines the result), a stable sort's output is unique, so any stable sort
  is a faithful model.
* The browser-side cropper `cropImage` (a canvas/Promise operation) is
  modelled as an oracle `crop : String → Box2d → Option String` mapping the
  page bitmap and box to PNG bytes; `none` models a rejected promise
  (cropping failure), caught per block in `generateDocx`.
* `generateDocx` returns `none` exactly when the source returns without
  constructing a `Document` (so no blob, no download link, no artifact).
-/

namespace OmniLex

/-- types.ts `BlockType`. -/
inductive BlockType where
  | paragraph
  | header
  | table
  | list
  | image_placeholder
  deriving DecidableEq

/-- types.ts `BoundingBox` / the `box_2d` tuple `[ymin, xmin, ymax, xmax]`,
normalized to the 0-1000 page space. -/
structure Box2d where
  ymin : Int
  xmin : Int
  ymax : Int
  xmax : Int
  deriving DecidableEq

/-- types.ts `TableCell` (the input cell record, not the docx output cell). -/
structure TableCellData where
  text : String
  row : Nat
  col : Nat
  rowSpan : Option Nat := none
  colSpan : Option Nat := none
  deriving DecidableEq

/-- types.ts `OCRBlock`.  `confidence` and `fontSize` are optional numbers the
core never reads; they are carried as `Rat`. -/
structure OCRBlock where
  id : String
  type : BlockType
  text : String
  confidence : Rat := 0
  box_2d : Box2d
  tableData : Option (List TableCellData) := none
  fontSize : Option Rat := none
  isBold : Bool := false
  isSelected : Bool := false
  deriving DecidableEq

/-- types.ts `PageResult`. -/
structure PageResult where
  pageNumber : Nat
  imageUrl : String
  blocks : List OCRBlock
  width : Nat
  height : Nat
  deriving DecidableEq

/-- types.ts `DocumentResult`. -/
structure DocumentResult where
  fileName : String
  pages : List PageResult
  deriving DecidableEq

/-- The `AlignmentType` values docxService uses. -/
inductive Alignment where
  | left
  | center
  | right
  deriving DecidableEq

/-- A docx `TextRun` as docxService constructs it. -/
structure DocxTextRun where
  text : String
  font : String
  size : Nat
  bold : Bool := false
  deriving DecidableEq

/-- A docx table cell as docxService constructs it: one left-aligned paragraph
holding one size-20 "Nirmala UI" run with the cell text, plus a declared
percentage width. -/
structure DocxTableCell where
  text : String
  widthPct : Rat
  deriving DecidableEq

/-- One document-level element pushed onto a page's `children` array.
`imagePara` is the centered image paragraph of an `image_placeholder` block;
`tableElem` a bordered table holding a dense row-major grid; `spacerPara` the
empty paragraph pushed right after a table; `textPara` one paragraph of a
text block. -/
inductive DocElement where
  | imagePara (data : String) (width : Rat) (height : Rat)
  | tableElem (rows : List (List DocxTableCell))
  | spacerPara
  | textPara (run : DocxTextRun) (alignment : Alignment) (spacingAfter : Nat)
  deriving DecidableEq

/-- One entry of docxService's `sections` array. -/
structure DocxSection where
  children : List DocElement
  deriving DecidableEq

/-- The constructed `Document` artifact: the export-boundary data (packing to
a blob and triggering the download add nothing observable beyond it). -/
structure DocxArtifact where
  sections : List DocxSection
  title : String := "OmniLex Digitation"
  creator : String := "OmniLex Engine"
  deriving DecidableEq

/-- The sort comparator of docxService.ts lines 53-58: ymin difference,
except that blocks on roughly the same line (|diff| < 20) compare by xmin. -/
def blockCmp (a b : OCRBlock) : Int :=
  let diff := a.box_2d.ymin - b.box_2d.ymin
  if diff.natAbs < 20 then a.box_2d.xmin - b.box_2d.xmin
  else diff

/-- Stable insertion: `a` goes before the first element `b` with
`blockCmp a b ≤ 0`, so an element never moves past one it ties with. -/
def insertBlock (a : OCRBlock) : List OCRBlock → List OCRBlock
  | [] => [a]
  | b :: l => if blockCmp a b ≤ 0 then a :: b :: l else b :: insertBlock a l

/-- `[...blocksToExport].sort(comparator)` (docxService.ts line 52), as the
stable sort under `blockCmp`. -/
def sortBlocks : List OCRBlock → List OCRBlock
  | [] => []
  | a :: l => insertBlock a (sortBlocks l)

/-- `exportAll ? p.blocks : p.blocks.filter(b => b.isSelected)`
(docxService.ts line 48). -/
def eligibleBlocks (exportAll : Bool) (p : PageResult) : List OCRBlock :=
  if exportAll then p.blocks else p.blocks.filter (fun b => b.isSelected)

/-- `Math.max(...block.tableData.map(d => d.row))` (line 86); the source only
evaluates it on a non-empty cell list, where folding from 0 agrees with
`Math.max` on naturals. -/
def maxRowOf (td : List TableCellData) : Nat :=
  (td.map (fun d => d.row)).foldl max 0

/-- `Math.max(...block.tableData.map(d => d.col))` (line 87). -/
def maxColOf (td : List TableCellData) : Nat :=
  (td.map (fun d => d.col)).foldl max 0

/-- `block.tableData.find(td => td.row === r && td.col === c)` (line 92):
the first cell record at exactly `(r, c)`. -/
def findCell (td : List TableCellData) (r c : Nat) : Option TableCellData :=
  td.find? (fun d => d.row == r && d.col == c)

/-- The run text of grid cell `(r, c)`: `cellData?.text || ""` (line 96).
The `|| ""` only replaces an absent cell's `undefined` (or an empty text,
which it maps to itself) by the empty string. -/
def cellTextAt (td : List TableCellData) (r c : Nat) : String :=
  match findCell td r c with
  | some d => d.text
  | none => ""

/-- The dense row-major grid of docxService.ts lines 86-111: rows 0..maxRow,
columns 0..maxCol, every cell declared `100 / (maxCol + 1)` percent wide. -/
def tableGrid (td : List TableCellData) : List (List DocxTableCell) :=
  (List.range (maxRowOf td + 1)).map (fun r =>
    (List.range (maxColOf td + 1)).map (fun c =>
      { text := cellTextAt td r c
        widthPct := 100 / (maxColOf td + 1 : Rat) }))

/-- What a table block with non-empty `tableData` pushes (lines 112-128):
the bordered grid, then a spacer paragraph. -/
def tableElements (td : List TableCellData) : List DocElement :=
  [DocElement.tableElem (tableGrid td), DocElement.spacerPara]

/-- Splitting a character sequence at every newline, the char-level meaning
of JavaScript `String.split('\n')` ("" gives [""], a trailing separator
leaves a final empty segment). -/
def splitOnNl : List Char → List (List Char)
  | [] => [[]]
  | c :: cs =>
    if c = '\n' then [] :: splitOnNl cs
    else
      match splitOnNl cs with
      | [] => [[c]]
      | l :: ls => (c :: l) :: ls

/-- `block.text.split('\n')` (line 130). -/
def splitLines (s : String) : List String :=
  (splitOnNl s.data).map String.mk

/-- `line.replace(/\t/g, '    ')` (line 135): every tab becomes four
spaces. -/
def replaceTabs (s : String) : String :=
  ⟨s.data.flatMap (fun c => if c = '\t' then "    ".data else [c])⟩

/-- The leading tab prefix from the xmin heuristic (line 134). -/
def leadingSpaces (b : OCRBlock) : String :=
  if b.box_2d.xmin > 400 then "\t\t"
  else if b.box_2d.xmin > 200 then "\t"
  else ""

/-- The paragraph alignment from the xmin/xmax heuristic (line 147). -/
def textAlignment (b : OCRBlock) : Alignment :=
  if b.box_2d.xmin > 600 then Alignment.right
  else if b.box_2d.xmin > 300 && b.box_2d.xmax < 700 then Alignment.center
  else Alignment.left

/-- The text branch (lines 130-155): one paragraph per line of
`block.text.split('\n')`; tabs inside a line become four spaces; headers are
size 28 and bold, other text size 22 (bold if `isBold`); the last line gets
trailing spacing 200, interior lines 50. -/
def textElements (block : OCRBlock) : List DocElement :=
  let lines := splitLines block.text
  lines.enum.map (fun p =>
    DocElement.textPara
      { text := leadingSpaces block ++ replaceTabs p.2
        font := "Nirmala UI"
        size := if block.type = BlockType.header then 28 else 22
        bold := block.type == BlockType.header || block.isBold }
      (textAlignment block)
      (if p.1 = lines.length - 1 then 200 else 50))

/-- Per-block dispatch (docxService.ts lines 61-156).  An image block whose
crop promise rejects is caught at lines 80-82: warn, push nothing.  A table
block falls through to the text branch when `tableData` is missing or empty
(the `&&` guard at line 85).  The `* 0.5` image scaling acts on the
normalized box span. -/
def blockElements (crop : String → Box2d → Option String) (imageUrl : String)
    (block : OCRBlock) : List DocElement :=
  if block.type = BlockType.image_placeholder then
    match crop imageUrl block.box_2d with
    | some data =>
        [DocElement.imagePara data
          (((block.box_2d.xmax - block.box_2d.xmin : Int) : Rat) / 2)
          (((block.box_2d.ymax - block.box_2d.ymin : Int) : Rat) / 2)]
    | none => []
  else if block.type == BlockType.table && !(block.tableData.getD []).isEmpty then
    tableElements (block.tableData.getD [])
  else
    textElements block

/-- The `children` array assembled for one page (lines 60-157). -/
def pageChildren (crop : String → Box2d → Option String) (exportAll : Bool)
    (p : PageResult) : List DocElement :=
  (sortBlocks (eligibleBlocks exportAll p)).flatMap (blockElements crop p.imageUrl)

/-- One iteration of the page loop: the section pushed for this page (`none`
models the `continue` at line 49), paired with the page as the loop leaves
it — read but never written (`[...blocksToExport]` copies the array before
the in-place sort, and no block field is ever assigned). -/
def processPage (crop : String → Box2d → Option String) (exportAll : Bool)
    (p : PageResult) : Option DocxSection × PageResult :=
  (if (eligibleBlocks exportAll p).isEmpty then none
   else some { children := pageChildren crop exportAll p }, p)

/-- `generateDocx` with the pages array threaded explicitly: first component
the produced artifact (`none` is the early `return` at line 165 — no
document constructed, no download offered), second the pages after the call. -/
def generateDocxProc (crop : String → Box2d → Option String)
    (pages : List PageResult) (exportAll : Bool) :
    Option DocxArtifact × List PageResult :=
  let results := pages.map (processPage crop exportAll)
  let sections := results.filterMap Prod.fst
  (if sections.isEmpty then none else some { sections := sections },
   results.map Prod.snd)

/-- docxService.ts `generateDocx` (lines 43-171): the artifact it produces,
if any. -/
def generateDocx (crop : String → Box2d → Option String)
    (pages : List PageResult) (exportAll : Bool) : Option DocxArtifact :=
  (generateDocxProc crop pages exportAll).1

/-- The rectangle handed to `handleAreaSelection`. -/
structure SelRect where
  xmin : Int
  ymin : Int
  xmax : Int
  ymax : Int
  deriving DecidableEq

/-- `isInside` (App.tsx line 138): the block box fully contained in the drawn
rectangle. -/
def containsBox (b : Box2d) (rect : SelRect) : Bool :=
  b.xmin ≥ rect.xmin && b.xmax ≤ rect.xmax && b.ymin ≥ rect.ymin && b.ymax ≤ rect.ymax

/-- The per-block update `handleAreaSelection` maps over the active page's
blocks (App.tsx lines 136-141). -/
def areaSelectBlocks (box : SelRect) (blocks : List OCRBlock) : List OCRBlock :=
  blocks.map (fun b =>
    if containsBox b.box_2d box then { b with isSelected := true } else b)

/-- The copy of the active page with the area selection applied. -/
def areaSelectPage (box : SelRect) (page : PageResult) : PageResult :=
  { page with blocks := areaSelectBlocks box page.blocks }

/-- The non-null branch of `handleAreaSelection`'s state update.  An
out-of-range `activePageIndex` cannot arise from the UI (the index always
names an existing page tab) and is modelled as leaving the state
unchanged. -/
def areaSelectCore (activePageIndex : Nat) (box : SelRect)
    (res : DocumentResult) : DocumentResult :=
  match res.pages[activePageIndex]? with
  | none => res
  | some page =>
      { res with pages := res.pages.set activePageIndex (areaSelectPage box page) }

/-- App.tsx `handleAreaSelection` (lines 131-145) acting on the `results`
state (a null previous state is kept null). -/
def handleAreaSelection (prev : Option DocumentResult) (activePageIndex : Nat)
    (box : SelRect) : Option DocumentResult :=
  prev.map (areaSelectCore activePageIndex box)

/-- The non-null branch of `toggleBlockSelection`'s state update:
`findIndex` locates the first block with the given id; `findIndex === -1`
(and the unreachable out-of-range reads) leave the pages structurally
unchanged. -/
def toggleCore (activePageIndex : Nat) (blockId : String)
    (res : DocumentResult) : DocumentResult :=
  match res.pages[activePageIndex]? with
  | none => res
  | some page =>
      match page.blocks.findIdx? (fun b => b.id == blockId) with
      | none => res
      | some bi =>
          match page.blocks[bi]? with
          | none => res
          | some block =>
              let block2 := { block with isSelected := !block.isSelected }
              let page2 := { page with blocks := page.blocks.set bi block2 }
              { res with pages := res.pages.set activePageIndex page2 }

/-- App.tsx `toggleBlockSelection` (lines 113-129) acting on the `results`
state (the separate `selectedBlockId` highlight is not selection state). -/
def toggleBlockSelection (prev : Option DocumentResult) (activePageIndex : Nat)
    (blockId : String) : Option DocumentResult :=
  prev.map (toggleCore activePageIndex blockId)

/-- One record of the OCR service's JSON response (response schema,
geminiService.ts lines 36-63: `type`, `text`, `box_2d` required; `id`,
`confidence`, `tableData`, `isBold` optional). -/
structure RawBlock where
  id : Option String := none
  type : BlockType
  text : String
  confidence : Rat := 0
  box_2d : Box2d
  tableData : Option (List TableCellData) := none
  isBold : Bool := false
  deriving DecidableEq

/-- `b.id || generated` (line 71): the record's id is kept unless it is
falsy — missing or the empty string. -/
def ingestId (gen : Nat → String) (i : Nat) (b : RawBlock) : String :=
  match b.id with
  | some s => if s = "" then gen i else s
  | none => gen i

/-- The ingestion mapping of `performOCR` (geminiService.ts lines 69-73):
spread the record, fill a generated id for a falsy one, force
`isSelected = true`.  `gen i` stands for the id the i-th evaluation of
`Math.random().toString(36).substr(2, 9)` produces; the generator is an
oracle parameter because `Math.random` is nondeterministic. -/
def ingestBlocks (gen : Nat → String) (raw : List RawBlock) : List OCRBlock :=
  raw.enum.map (fun p =>
    { id := ingestId gen p.1 p.2
      type := p.2.type
      text := p.2.text
      confidence := p.2.confidence
      box_2d := p.2.box_2d
      tableData := p.2.tableData
      isBold := p.2.isBold
      isSelected := true })

/-- Spec §4.1 `sameLine`: the ymin values differ by less than the 20-unit
line tolerance. -/
def sameLine (a b : OCRBlock) : Prop :=
  (a.box_2d.ymin - b.box_2d.ymin).natAbs < 20

instance (a b : OCRBlock) : Decidable (sameLine a b) :=
  inferInstanceAs (Decidable (_ < _))

/-- The ordering C3 claims between any two blocks appearing in this order in
the sorted output: same-line pairs by xmin ascending, other pairs by ymin
ascending. -/
def claimOrdered (a b : OCRBlock) : Prop :=
  (sameLine a b → a.box_2d.xmin ≤ b.box_2d.xmin) ∧
  (¬ sameLine a b → a.box_2d.ymin < b.box_2d.ymin)

/-- The tie-tolerant reading-order relation: same-line pairs by xmin with
ties allowed, other pairs by ymin. -/
def readingLE (a b : OCRBlock) : Prop :=
  (sameLine a b → a.box_2d.xmin ≤ b.box_2d.xmin) ∧
  (¬ sameLine a b → a.box_2d.ymin ≤ b.box_2d.ymin)

instance (a b : OCRBlock) : Decidable (readingLE a b) :=
  inferInstanceAs (Decidable (_ ∧ _))

/-- A concrete block with the given ymin and xmin, for examples. -/
def cexBlock (yn xn : Int) : OCRBlock :=
  { id := "x", type := BlockType.paragraph, text := "",
    box_2d := { ymin := yn, xmin := xn, ymax := yn + 10, xmax := xn + 50 },
    isSelected := true }

/-- A selected image block whose crop will fail, for the C6 witness. -/
def imgBlockW : OCRBlock :=
  { id := "i", type := BlockType.image_placeholder, text := "",
    box_2d := { ymin := 0, xmin := 0, ymax := 100, xmax := 100 },
    isSelected := true }

/-- A one-page input containing a doomed image block and a text block. -/
def pageW : PageResult :=
  { pageNumber := 1, imageUrl := "img", blocks := [imgBlockW, cexBlock 200 0],
    width := 10, height := 10 }

/-- A table block with an empty cell set, for C2. -/
def emptyTableBlock : OCRBlock :=
  { id := "t", type := BlockType.table, text := "", tableData := some [],
    box_2d := { ymin := 0, xmin := 0, ymax := 10, xmax := 10 },
    isSelected := true }

/-- A deterministic stand-in id generator for the C8 witness. -/
def genW (i : Nat) : String :=
  { data := List.replicate (i + 1) 'g' }

/-- Two raw service records for the C8 witness: one with an id, one
without. -/
def rawW : List RawBlock :=
  [{ id := some "keep", type := BlockType.paragraph, text := "a",
     box_2d := { ymin := 0, xmin := 0, ymax := 1, xmax := 1 } },
   { id := none, type := BlockType.paragraph, text := "b",
     box_2d := { ymin := 0, xmin := 0, ymax := 1, xmax := 1 } }]

/-- The toggled copy of a block: `isSelected` flipped, all else kept. -/
def toggledBlock (block : OCRBlock) : OCRBlock :=
  { block with isSelected := !block.isSelected }

/-- The active page after toggling the block at index `bi` (passed in as
`block`). -/
def toggledPage (page : PageResult) (bi : Nat) (block : OCRBlock) : PageResult :=
  { page with blocks := page.blocks.set bi (toggledBlock block) }

theorem readingLE_iff (a b : OCRBlock) : readingLE a b ↔ blockCmp a b ≤ 0 := by
  unfold readingLE sameLine blockCmp
  by_cases h : (a.box_2d.ymin - b.box_2d.ymin).natAbs < 20 <;> simp [h]

theorem insertBlock_perm (a : OCRBlock) (l : List OCRBlock) :
    (insertBlock a l).Perm (a :: l) := by
  induction l with
  | nil => simp [insertBlock]
  | cons b l ih =>
    rw [insertBlock]
    by_cases h : blockCmp a b ≤ 0
    · rw [if_pos h]
    · rw [if_neg h]
      exact (ih.cons b).trans (List.Perm.swap a b l)

theorem sortBlocks_perm (l : List OCRBlock) : (sortBlocks l).Perm l := by
  induction l with
  | nil => simp [sortBlocks]
  | cons a l ih => exact (insertBlock_perm a (sortBlocks l)).trans (ih.cons a)

theorem blockCmp_total {a b : OCRBlock} (h : ¬ blockCmp a b ≤ 0) :
    blockCmp b a ≤ 0 := by
  unfold blockCmp at h ⊢
  by_cases hl : (a.box_2d.ymin - b.box_2d.ymin).natAbs < 20 <;>
    by_cases hr : (b.box_2d.ymin - a.box_2d.ymin).natAbs < 20 <;>
    simp [hl, hr] at h ⊢ <;> omega

theorem chain'_insertBlock (a : OCRBlock) :
    ∀ l : List OCRBlock, List.Chain' (fun x y => blockCmp x y ≤ 0) l →
      List.Chain' (fun x y => blockCmp x y ≤ 0) (insertBlock a l)
  | [], _ => by simp [insertBlock]
  | b :: l, h => by
    rw [insertBlock]
    by_cases hab : blockCmp a b ≤ 0
    · rw [if_pos hab]
      exact List.chain'_cons.mpr ⟨hab, h⟩
    · rw [if_neg hab]
      cases l with
      | nil =>
        simp only [insertBlock]
        exact List.chain'_cons.mpr ⟨blockCmp_total hab, List.chain'_singleton a⟩
      | cons c l' =>
        have hbc := (List.chain'_cons.mp h).1
        have hrec := chain'_insertBlock a (c :: l') (List.chain'_cons.mp h).2
        rw [insertBlock] at hrec ⊢
        by_cases hac : blockCmp a c ≤ 0
        · rw [if_pos hac] at hrec ⊢
          exact List.chain'_cons.mpr ⟨blockCmp_total hab, hrec⟩
        · rw [if_neg hac] at hrec ⊢
          exact List.chain'_cons.mpr ⟨hbc, hrec⟩

theorem chain'_sortBlocks (l : List OCRBlock) :
    List.Chain' (fun x y => blockCmp x y ≤ 0) (sortBlocks l) := by
  induction l with
  | nil => simp [sortBlocks]
  | cons a l ih => exact chain'_insertBlock a (sortBlocks l) ih

theorem sortBlocks_fixed :
    ∀ l : List OCRBlock, List.Chain' (fun x y => blockCmp x y ≤ 0) l →
      sortBlocks l = l
  | [], _ => rfl
  | a :: l, h => by
    rw [sortBlocks, sortBlocks_fixed l h.tail]
    cases l with
    | nil => rfl
    | cons b l' => rw [insertBlock, if_pos (List.chain'_cons.mp h).1]


/-- C3 (counterexample): the claimed pairwise ordering of the sorted output
fails on the input [(ymin=0,xmin=100), (ymin=15,xmin=50), (ymin=30,xmin=0)]:
the comparator is not transitive there (0 and 15 are same-line, 15 and 30
are same-line, but 0 and 30 are not), and the pair ((0,100), (15,50)) of the
output violates the same-line xmin rule; indeed no permutation of these
three blocks satisfies the claimed property. -/
theorem readingOrder_pairwise_cex :
    ¬ (sortBlocks [cexBlock 0 100, cexBlock 15 50, cexBlock 30 0]).Pairwise
        claimOrdered := by
  intro h
  have hs : sortBlocks [cexBlock 0 100, cexBlock 15 50, cexBlock 30 0] =
      [cexBlock 0 100, cexBlock 30 0, cexBlock 15 50] := rfl
  rw [hs] at h
  have h1 := (List.pairwise_cons.mp h).1 (cexBlock 15 50)
    (List.mem_cons_of_mem _ (List.mem_cons_self _ _))
  have h2 := h1.1 (by decide)
  revert h2
  decide

/-- C3 (amended): `generateDocx` orders each page's eligible blocks by the
stable sort under the line-banded comparator (ymin primary; xmin for pairs
within the 20-unit line tolerance).  Consequently (1) the output is a
permutation of the input, (2) every pair of *adjacent* output blocks is in
reading order (same-line pairs by xmin, others by ymin), (3) an input
already in reading order is kept verbatim (stability/determinism on
consistent inputs), and (4) the claim's example sorts exactly as stated:
[(10,500),(12,100),(300,0)] ↦ [(12,100),(10,500),(300,0)].  The claim's
pairwise guarantee over arbitrary (not just adjacent) output positions is
refuted by `readingOrder_pairwise_cex`, where the comparator is not
transitive. -/
theorem readingOrder_sort_spec :
    (∀ l : List OCRBlock, (sortBlocks l).Perm l) ∧
    (∀ l : List OCRBlock, List.Chain' readingLE (sortBlocks l)) ∧
    (∀ l : List OCRBlock, List.Chain' readingLE l → sortBlocks l = l) ∧
    sortBlocks [cexBlock 10 500, cexBlock 12 100, cexBlock 300 0] =
      [cexBlock 12 100, cexBlock 10 500, cexBlock 300 0] := by
  refine ⟨sortBlocks_perm, fun l => ?_, fun l h => ?_, rfl⟩
  · exact (chain'_sortBlocks l).imp (fun a b hab => (readingLE_iff a b).mpr hab)
  · exact sortBlocks_fixed l (h.imp (fun a b hab => (readingLE_iff a b).mp hab))

/-- C3 witness: the stability conjunct applied to a concrete two-block list
already in reading order. -/
theorem readingOrder_sort_spec_witness :
    List.Chain' readingLE [cexBlock 0 0, cexBlock 0 50] ∧
    sortBlocks [cexBlock 0 0, cexBlock 0 50] = [cexBlock 0 0, cexBlock 0 50] := by
  have hch : List.Chain' readingLE [cexBlock 0 0, cexBlock 0 50] :=
    List.chain'_pair.mpr (by decide)
  exact ⟨hch, readingOrder_sort_spec.2.2.1 _ hch⟩

/-- C7: `generateDocx` treats its input as read-only: with the pages array
threaded through the call explicitly, the state after the call equals the
input for every pages list, crop outcome and export mode — every page, every
block, every field (including `isSelected`) and the order of blocks within
each page are unchanged. -/
theorem generateDocx_readonly (crop : String → Box2d → Option String)
    (pages : List PageResult) (exportAll : Bool) :
    (generateDocxProc crop pages exportAll).2 = pages := by
  show (pages.map (processPage crop exportAll)).map Prod.snd = pages
  rw [List.map_map]
  exact List.map_id pages

/-- C4: if after selection filtering every page contributes zero blocks
(also when there are zero pages), `generateDocx` produces no output artifact
at all: no document value is constructed and no download is offered. -/
theorem generateDocx_nothing_to_export (crop : String → Box2d → Option String)
    (pages : List PageResult) (exportAll : Bool)
    (h : ∀ p ∈ pages, eligibleBlocks exportAll p = []) :
    generateDocx crop pages exportAll = none := by
  have hsec : (pages.map (processPage crop exportAll)).filterMap Prod.fst = [] := by
    rw [List.filterMap_map]
    refine List.filterMap_eq_nil_iff.mpr (fun p hp => ?_)
    simp [Function.comp, processPage, h p hp]
  show (if ((pages.map (processPage crop exportAll)).filterMap Prod.fst).isEmpty
      then none else _) = _
  rw [hsec]
  rfl

/-- C4 witness: a one-page document whose only block is deselected, exported
in selected-only mode, yields no artifact. -/
theorem generateDocx_nothing_to_export_witness :
    eligibleBlocks false
        { pageNumber := 1, imageUrl := "u",
          blocks := [{ cexBlock 0 0 with isSelected := false }],
          width := 10, height := 10 } = [] ∧
    generateDocx (fun _ _ => none)
        [{ pageNumber := 1, imageUrl := "u",
           blocks := [{ cexBlock 0 0 with isSelected := false }],
           width := 10, height := 10 }] false = none := by
  refine ⟨rfl, generateDocx_nothing_to_export _ _ _ (fun p hp => ?_)⟩
  rcases List.mem_singleton.mp hp with rfl
  rfl

theorem sublist_flatMap_of_mem {α β : Type} {b : α} {l : List α} (f : α → List β)
    (h : b ∈ l) : (f b).Sublist (l.flatMap f) := by
  induction l with
  | nil => cases h
  | cons x l ih =>
    rw [List.flatMap_cons]
    rcases List.mem_cons.mp h with rfl | h2
    · exact List.sublist_append_left _ _
    · exact (ih h2).trans (List.sublist_append_right _ _)

/-- C6: a failing crop of an `image_placeholder` block is caught for that
block alone: it contributes no elements, while the export is not aborted —
an artifact is still produced, each contributing page's children appear in
it, and every eligible block of every page still has its elements emitted
inside its page's children. -/
theorem cropFailure_isolated (crop : String → Box2d → Option String)
    (pages : List PageResult) (exportAll : Bool) (p : PageResult) (b : OCRBlock)
    (hp : p ∈ pages) (hb : b ∈ eligibleBlocks exportAll p)
    (hty : b.type = BlockType.image_placeholder)
    (hfail : crop p.imageUrl b.box_2d = none) :
    blockElements crop p.imageUrl b = [] ∧
    ∃ art, generateDocx crop pages exportAll = some art ∧
      ∀ p2 ∈ pages, eligibleBlocks exportAll p2 ≠ [] →
        ({ children := pageChildren crop exportAll p2 } : DocxSection) ∈ art.sections ∧
        ∀ b2 ∈ eligibleBlocks exportAll p2,
          (blockElements crop p2.imageUrl b2).Sublist (pageChildren crop exportAll p2) := by
  constructor
  · simp [blockElements, hty, hfail]
  · have hmem : ∀ p2 ∈ pages, eligibleBlocks exportAll p2 ≠ [] →
        ({ children := pageChildren crop exportAll p2 } : DocxSection) ∈
          (pages.map (processPage crop exportAll)).filterMap Prod.fst := by
      intro p2 hp2 hne
      rw [List.filterMap_map]
      refine List.mem_filterMap.mpr ⟨p2, hp2, ?_⟩
      simp [Function.comp, processPage, hne]
    have hne0 : eligibleBlocks exportAll p ≠ [] := by
      intro hEq
      rw [hEq] at hb
      cases hb
    have hsne : (pages.map (processPage crop exportAll)).filterMap Prod.fst ≠ [] := by
      intro hEq
      have := hmem p hp hne0
      rw [hEq] at this
      cases this
    have hart : generateDocx crop pages exportAll =
        some { sections := (pages.map (processPage crop exportAll)).filterMap Prod.fst } := by
      simp only [generateDocx, generateDocxProc]
      rw [if_neg (by simpa using hsne)]
    refine ⟨_, hart, fun p2 hp2 hne2 => ⟨hmem p2 hp2 hne2, fun b2 hb2 => ?_⟩⟩
    have hb2s : b2 ∈ sortBlocks (eligibleBlocks exportAll p2) :=
      ((sortBlocks_perm _).mem_iff).mpr hb2
    exact sublist_flatMap_of_mem _ hb2s



/-- C6 witness: with an always-failing cropper, the image block contributes
nothing, yet the export still produces an artifact. -/
theorem cropFailure_isolated_witness :
    blockElements (fun _ _ => none) pageW.imageUrl imgBlockW = [] ∧
    ∃ art, generateDocx (fun _ _ => none) [pageW] true = some art := by
  obtain ⟨h1, art, h2, -⟩ :=
    cropFailure_isolated (fun _ _ => none) [pageW] true pageW imgBlockW
      (List.mem_singleton.mpr rfl)
      (List.mem_cons_self _ _)
      rfl
      rfl
  exact ⟨h1, art, h2⟩

theorem foldl_max_shift (l : List Nat) : ∀ a : Nat, l.foldl max a = max a (l.foldl max 0) := by
  induction l with
  | nil => intro a; simp
  | cons b l ih =>
    intro a
    simp only [List.foldl_cons, Nat.zero_max]
    rw [ih (max a b), ih b, Nat.max_assoc]

theorem le_foldl_max {n : Nat} (l : List Nat) (h : n ∈ l) : n ≤ l.foldl max 0 := by
  induction l with
  | nil => cases h
  | cons b l ih =>
    simp only [List.foldl_cons, Nat.zero_max]
    rw [foldl_max_shift l b]
    rcases List.mem_cons.mp h with rfl | h2
    · exact Nat.le_max_left _ _
    · exact (ih h2).trans (Nat.le_max_right _ _)

theorem foldl_max_mem : ∀ l : List Nat, l ≠ [] → l.foldl max 0 ∈ l := by
  intro l
  induction l with
  | nil => intro h; exact absurd rfl h
  | cons b l ih =>
    intro _
    simp only [List.foldl_cons, Nat.zero_max]
    rw [foldl_max_shift l b]
    cases l with
    | nil => simp
    | cons c l' =>
      rcases Nat.le_total b ((c :: l').foldl max 0) with hle | hle
      · rw [Nat.max_eq_right hle]
        exact List.mem_cons_of_mem _ (ih (by simp))
      · rw [Nat.max_eq_left hle]
        exact List.mem_cons_self _ _

/-- C1: for a table block with a non-empty cell list `td`, `generateDocx`
emits exactly the dense grid followed by a spacer; `maxRowOf`/`maxColOf` are
the maximum row/column indices present in `td`; the grid has maxRow+1 rows,
each row maxCol+1 cells; grid cell (r, c) carries the text of a cell record
with row = r and col = c when one exists and empty text otherwise; and every
grid cell is declared 100 / (maxCol+1) percent of the table width. -/
theorem tableBlock_dense_grid (td : List TableCellData) (hne : td ≠ []) :
    (∃ d ∈ td, d.row = maxRowOf td) ∧ (∀ d ∈ td, d.row ≤ maxRowOf td) ∧
    (∃ d ∈ td, d.col = maxColOf td) ∧ (∀ d ∈ td, d.col ≤ maxColOf td) ∧
    (∀ (crop : String → Box2d → Option String) (url : String) (block : OCRBlock),
      block.type = BlockType.table → block.tableData = some td →
      blockElements crop url block =
        [DocElement.tableElem (tableGrid td), DocElement.spacerPara]) ∧
    (tableGrid td).length = maxRowOf td + 1 ∧
    (∀ row ∈ tableGrid td, row.length = maxColOf td + 1) ∧
    (∀ r c (hr : r < (tableGrid td).length)
        (hc : c < ((tableGrid td).get ⟨r, hr⟩).length),
      (((tableGrid td).get ⟨r, hr⟩).get ⟨c, hc⟩).widthPct =
          100 / (maxColOf td + 1 : Rat) ∧
      ((∃ d ∈ td, d.row = r ∧ d.col = c ∧
          (((tableGrid td).get ⟨r, hr⟩).get ⟨c, hc⟩).text = d.text) ∨
        ((∀ d ∈ td, ¬(d.row = r ∧ d.col = c)) ∧
          (((tableGrid td).get ⟨r, hr⟩).get ⟨c, hc⟩).text = ""))) := by
  have hmapne : ∀ f : TableCellData → Nat, td.map f ≠ [] := by
    intro f h
    exact hne (List.map_eq_nil_iff.mp h)
  refine ⟨?_, ?_, ?_, ?_, ?_, ?_, ?_, ?_⟩
  · obtain ⟨d, hd, hrow⟩ := List.mem_map.mp (foldl_max_mem _ (hmapne (fun d => d.row)))
    exact ⟨d, hd, hrow⟩
  · intro d hd
    exact le_foldl_max _ (List.mem_map.mpr ⟨d, hd, rfl⟩)
  · obtain ⟨d, hd, hcol⟩ := List.mem_map.mp (foldl_max_mem _ (hmapne (fun d => d.col)))
    exact ⟨d, hd, hcol⟩
  · intro d hd
    exact le_foldl_max _ (List.mem_map.mpr ⟨d, hd, rfl⟩)
  · intro crop url block h1 h2
    rw [blockElements, if_neg (by rw [h1]; intro hcon; cases hcon), if_pos]
    · rw [h2]
      rfl
    · rw [h1, h2]
      simp [hne]
  · simp [tableGrid]
  · intro row hrow
    simp only [tableGrid, List.mem_map] at hrow
    obtain ⟨r, -, hrow⟩ := hrow
    simp [← hrow]
  · intro r c hr hc
    have hcell : (((tableGrid td).get ⟨r, hr⟩).get ⟨c, hc⟩) =
        { text := cellTextAt td r c, widthPct := 100 / (maxColOf td + 1 : Rat) } := by
      simp [tableGrid, List.get_eq_getElem]
    rw [hcell]
    refine ⟨rfl, ?_⟩
    cases hfind : findCell td r c with
    | some d =>
      have hdmem := List.mem_of_find?_eq_some hfind
      have hdpred := List.find?_some hfind
      simp only [Bool.and_eq_true, beq_iff_eq] at hdpred
      exact Or.inl ⟨d, hdmem, hdpred.1, hdpred.2, by simp [cellTextAt, hfind]⟩
    | none =>
      refine Or.inr ⟨?_, by simp [cellTextAt, hfind]⟩
      intro d hd hdrc
      have := List.find?_eq_none.mp hfind d hd
      simp only [Bool.and_eq_true, beq_iff_eq] at this
      exact this ⟨hdrc.1, hdrc.2⟩

/-- C1 witness: the specification's example, cells [(0,0,"A"), (2,1,"B")],
yields a 3-row grid. -/
theorem tableBlock_dense_grid_witness :
    ([{ text := "A", row := 0, col := 0 }, { text := "B", row := 2, col := 1 }] :
      List TableCellData) ≠ [] ∧
    (tableGrid [{ text := "A", row := 0, col := 0 },
                { text := "B", row := 2, col := 1 }]).length = 3 := by
  refine ⟨by decide, ?_⟩
  have h := (tableBlock_dense_grid
    [{ text := "A", row := 0, col := 0 }, { text := "B", row := 2, col := 1 }]
    (by decide)).2.2.2.2.2.1
  exact h.trans (by decide)

theorem find?_eq_head_filter {α : Type} (p : α → Bool) :
    ∀ l : List α, l.find? p = (l.filter p).head? := by
  intro l
  induction l with
  | nil => rfl
  | cons a l ih =>
    cases hpa : p a with
    | true => rw [List.find?_cons_of_pos _ hpa, List.filter_cons_of_pos hpa, List.head?_cons]
    | false =>
        rw [List.find?_cons_of_neg _ (by simp [hpa]), List.filter_cons_of_neg (by simp [hpa]), ih]

theorem maxRowOf_append_mem (td : List TableCellData) (d : TableCellData)
    (h : d.row ∈ td.map (fun x => x.row)) :
    maxRowOf (td ++ [d]) = maxRowOf td := by
  unfold maxRowOf
  rw [List.map_append, List.foldl_append]
  simp only [List.map_cons, List.map_nil, List.foldl_cons, List.foldl_nil]
  exact Nat.max_eq_left (le_foldl_max _ h)

theorem maxColOf_append_mem (td : List TableCellData) (d : TableCellData)
    (h : d.col ∈ td.map (fun x => x.col)) :
    maxColOf (td ++ [d]) = maxColOf td := by
  unfold maxColOf
  rw [List.map_append, List.foldl_append]
  simp only [List.map_cons, List.map_nil, List.foldl_cons, List.foldl_nil]
  exact Nat.max_eq_left (le_foldl_max _ h)

/-- C10: duplicate (row, col) pairs resolve by first occurrence in list
order: when two or more cell records share a position, the grid cell text at
that position is the text of the first matching record (the head of the
order-preserving filter), and appending a later duplicate of an
already-present position leaves the whole emitted grid unchanged. -/
theorem duplicate_cells_first_wins :
    (∀ (td : List TableCellData) (r c : Nat) (first : TableCellData)
        (rest : List TableCellData),
      td.filter (fun d => d.row == r && d.col == c) = first :: rest → rest ≠ [] →
      cellTextAt td r c = first.text) ∧
    (∀ (td : List TableCellData) (d : TableCellData),
      (∃ d0 ∈ td, d0.row = d.row ∧ d0.col = d.col) →
      tableGrid (td ++ [d]) = tableGrid td) := by
  constructor
  · intro td r c first rest hfil _
    unfold cellTextAt findCell
    rw [find?_eq_head_filter, hfil]
    rfl
  · intro td d hdup
    obtain ⟨d0, hd0, hrow, hcol⟩ := hdup
    have hmr : maxRowOf (td ++ [d]) = maxRowOf td :=
      maxRowOf_append_mem td d (List.mem_map.mpr ⟨d0, hd0, hrow⟩)
    have hmc : maxColOf (td ++ [d]) = maxColOf td :=
      maxColOf_append_mem td d (List.mem_map.mpr ⟨d0, hd0, hcol⟩)
    have htext : ∀ r c : Nat, cellTextAt (td ++ [d]) r c = cellTextAt td r c := by
      intro r c
      unfold cellTextAt findCell
      rw [List.find?_append]
      cases hf : td.find? (fun x => x.row == r && x.col == c) with
      | some e => rfl
      | none =>
        have hd0n := List.find?_eq_none.mp hf d0 hd0
        simp only [Bool.and_eq_true, beq_iff_eq, not_and] at hd0n
        have hdn : (d.row == r && d.col == c) = false := by
          by_cases hdr : d.row = r
          · by_cases hdc : d.col = c
            · exact absurd (hcol.trans hdc) (hd0n (hrow.trans hdr))
            · simp [hdc]
          · simp [hdr]
        simp [List.find?, hdn]
    simp only [tableGrid, hmr, hmc]
    refine List.map_congr_left (fun r _ => ?_)
    refine List.map_congr_left (fun c _ => ?_)
    rw [htext r c]

/-- C10 witness: with cells [(0,0,"x"), (0,0,"y")], position (0,0) carries
"x", and appending a further duplicate at (0,0) leaves the grid unchanged. -/
theorem duplicate_cells_first_wins_witness :
    (([{ text := "x", row := 0, col := 0 }, { text := "y", row := 0, col := 0 }] :
        List TableCellData).filter (fun d => d.row == 0 && d.col == 0) =
      [{ text := "x", row := 0, col := 0 }, { text := "y", row := 0, col := 0 }]) ∧
    cellTextAt [{ text := "x", row := 0, col := 0 },
                { text := "y", row := 0, col := 0 }] 0 0 = "x" ∧
    tableGrid ([{ text := "x", row := 0, col := 0 },
                { text := "y", row := 0, col := 0 }] ++
        [{ text := "z", row := 0, col := 0 }]) =
      tableGrid [{ text := "x", row := 0, col := 0 },
                 { text := "y", row := 0, col := 0 }] := by
  refine ⟨by decide, ?_, ?_⟩
  · exact duplicate_cells_first_wins.1 _ 0 0
      { text := "x", row := 0, col := 0 } [{ text := "y", row := 0, col := 0 }]
      (by decide) (by decide)
  · exact duplicate_cells_first_wins.2 _ { text := "z", row := 0, col := 0 }
      ⟨{ text := "x", row := 0, col := 0 }, List.mem_cons_self _ _, rfl, rfl⟩

theorem list_set_self {α : Type} (l : List α) (i : Nat) (h : i < l.length) :
    l.set i l[i] = l := by
  apply List.ext_getElem
  · simp
  · intro j hj hj2
    by_cases hij : i = j
    · subst hij
      simp
    · rw [List.getElem_set_ne hij]

theorem findIdx?_set_congr {α : Type} (p : α → Bool) :
    ∀ (l : List α) (i : Nat) (a : α) (s : Nat),
      (∀ h : i < l.length, p a = p l[i]) →
      (l.set i a).findIdx? p s = l.findIdx? p s
  | [], _, _, _, _ => rfl
  | b :: l, 0, a, s, hp => by
    rw [List.set_cons_zero, List.findIdx?_cons, List.findIdx?_cons, hp (by simp)]
    rfl
  | b :: l, i + 1, a, s, hp => by
    rw [List.set_cons_succ, List.findIdx?_cons, List.findIdx?_cons,
      findIdx?_set_congr p l i a (s + 1) (fun h => hp (Nat.succ_lt_succ h))]



theorem toggleCore_found (idx : Nat) (blockId : String) (res : DocumentResult)
    (page : PageResult) (bi : Nat) (block : OCRBlock)
    (hpg : res.pages[idx]? = some page)
    (hfi : page.blocks.findIdx? (fun b => b.id == blockId) = some bi)
    (hbl : page.blocks[bi]? = some block) :
    toggleCore idx blockId res =
      { res with pages := res.pages.set idx (toggledPage page bi block) } := by
  unfold toggleCore
  rw [hpg]
  dsimp only
  rw [hfi]
  dsimp only
  rw [hbl]
  dsimp only [toggledPage, toggledBlock]

theorem toggledBlock_involutive (block : OCRBlock) :
    toggledBlock (toggledBlock block) = block := by
  dsimp only [toggledBlock]
  rw [Bool.not_not]

/-- C9: double-toggle is the identity on the selection state: for every
state, active page index and block id, calling `toggleBlockSelection` twice
with the same id returns the state — in particular the toggled block's
`isSelected` regains its original value and every other block is
unchanged. -/
theorem toggle_twice_id (prev : Option DocumentResult) (idx : Nat) (blockId : String) :
    toggleBlockSelection (toggleBlockSelection prev idx blockId) idx blockId = prev := by
  cases prev with
  | none => rfl
  | some res =>
    show some (toggleCore idx blockId (toggleCore idx blockId res)) = some res
    congr 1
    cases hpg : res.pages[idx]? with
    | none =>
      have h1 : toggleCore idx blockId res = res := by
        unfold toggleCore
        rw [hpg]
      rw [h1, h1]
    | some page =>
      cases hfi : page.blocks.findIdx? (fun b => b.id == blockId) with
      | none =>
        have h1 : toggleCore idx blockId res = res := by
          unfold toggleCore
          rw [hpg]
          dsimp only
          rw [hfi]
        rw [h1, h1]
      | some bi =>
        cases hbl : page.blocks[bi]? with
        | none =>
          have h1 : toggleCore idx blockId res = res := by
            unfold toggleCore
            rw [hpg]
            dsimp only
            rw [hfi]
            dsimp only
            rw [hbl]
          rw [h1, h1]
        | some block =>
          obtain ⟨hidx, hpageeq⟩ := List.getElem?_eq_some.mp hpg
          obtain ⟨hbi, hblockeq⟩ := List.getElem?_eq_some.mp hbl
          have hfinal : toggledPage (toggledPage page bi block) bi (toggledBlock block) =
              page := by
            dsimp only [toggledPage]
            rw [List.set_set, toggledBlock_involutive]
            rw [show block = page.blocks[bi] from hblockeq.symm]
            rw [list_set_self page.blocks bi hbi]
          rw [toggleCore_found idx blockId res page bi block hpg hfi hbl]
          rw [toggleCore_found idx blockId _ (toggledPage page bi block) bi
            (toggledBlock block)
            (by dsimp only [toggledPage]; exact List.getElem?_set_self hidx)
            (by
              dsimp only [toggledPage]
              rw [findIdx?_set_congr _ page.blocks bi _ 0
                (fun h => by rw [hblockeq]; rfl)]
              exact hfi)
            (by dsimp only [toggledPage]; exact List.getElem?_set_self hbi)]
          dsimp only
          rw [List.set_set, hfinal]
          rw [show page = res.pages[idx] from hpageeq.symm]
          rw [list_set_self res.pages idx hidx]

/-- C5: `selectByArea` sets `isSelected := true` for exactly the blocks of
the active page whose box is fully contained in the rectangle
(xmin ≥ rect.xmin, xmax ≤ rect.xmax, ymin ≥ rect.ymin, ymax ≤ rect.ymax),
leaves every non-contained block — and every block of every other page —
entirely unchanged, and is additive-only: an already-selected block stays
selected. -/
theorem selectByArea_spec (res : DocumentResult) (idx : Nat) (box : SelRect)
    (hidx : idx < res.pages.length) :
    ∃ res2, handleAreaSelection (some res) idx box = some res2 ∧
      res2.fileName = res.fileName ∧
      res2.pages.length = res.pages.length ∧
      (∀ j, j ≠ idx → res2.pages[j]? = res.pages[j]?) ∧
      ∃ page page2, res.pages[idx]? = some page ∧ res2.pages[idx]? = some page2 ∧
        page2.pageNumber = page.pageNumber ∧ page2.imageUrl = page.imageUrl ∧
        page2.width = page.width ∧ page2.height = page.height ∧
        page2.blocks.length = page.blocks.length ∧
        ∀ (i : Nat) (b : OCRBlock), page.blocks[i]? = some b →
          ∃ b2 : OCRBlock, page2.blocks[i]? = some b2 ∧
          (containsBox b.box_2d box = true → b2 = { b with isSelected := true }) ∧
          (containsBox b.box_2d box = false → b2 = b) ∧
          (b.isSelected = true → b2.isSelected = true) := by
  have hpg : res.pages[idx]? = some res.pages[idx] := List.getElem?_eq_getElem hidx
  have hcore : areaSelectCore idx box res =
      { res with pages := res.pages.set idx (areaSelectPage box res.pages[idx]) } := by
    unfold areaSelectCore
    rw [hpg]
  refine ⟨areaSelectCore idx box res, rfl, ?_, ?_, ?_, ?_⟩
  · rw [hcore]
  · rw [hcore]
    simp
  · intro j hj
    rw [hcore]
    dsimp only
    rw [List.getElem?_set_ne (Ne.symm hj)]
  · refine ⟨res.pages[idx], areaSelectPage box res.pages[idx], hpg, ?_, rfl, rfl,
      rfl, rfl, by simp [areaSelectPage, areaSelectBlocks], ?_⟩
    · rw [hcore]
      dsimp only
      exact List.getElem?_set_self hidx
    · intro i b hb
      dsimp only [areaSelectPage, areaSelectBlocks]
      rw [List.getElem?_map, hb]
      dsimp only [Option.map]
      by_cases hcb : containsBox b.box_2d box = true
      · refine ⟨_, rfl, fun _ => ?_, fun hfalse => ?_, fun _ => ?_⟩
        · rw [if_pos hcb]
        · rw [hcb] at hfalse
          cases hfalse
        · rw [if_pos hcb]
      · refine ⟨_, rfl, fun htrue => ?_, fun _ => ?_, fun hsel => ?_⟩
        · exact absurd htrue hcb
        · rw [if_neg hcb]
        · rw [if_neg hcb]
          exact hsel

/-- C5 witness: a two-block page — block A already selected and outside the
rectangle, block B unselected and inside — keeps its length-1 page list and
the update succeeds. -/
theorem selectByArea_spec_witness :
    ∃ res2,
      handleAreaSelection
        (some { fileName := "f",
                pages := [{ pageNumber := 1, imageUrl := "u",
                            blocks := [cexBlock 500 500,
                                       { cexBlock 0 0 with isSelected := false }],
                            width := 10, height := 10 }] })
        0 { xmin := 0, ymin := 0, xmax := 100, ymax := 100 } = some res2 ∧
      res2.pages.length = 1 := by
  obtain ⟨res2, heq, -, hlen, -, -⟩ :=
    selectByArea_spec
      { fileName := "f",
        pages := [{ pageNumber := 1, imageUrl := "u",
                    blocks := [cexBlock 500 500,
                               { cexBlock 0 0 with isSelected := false }],
                    width := 10, height := 10 }] }
      0 { xmin := 0, ymin := 0, xmax := 100, ymax := 100 } (by simp)
  exact ⟨res2, heq, hlen⟩

theorem splitOnNl_ne_nil : ∀ cs : List Char, splitOnNl cs ≠ []
  | [] => by simp [splitOnNl]
  | c :: cs => by
    rw [splitOnNl]
    by_cases h : c = '\n'
    · simp [h]
    · rw [if_neg h]
      cases hs : splitOnNl cs <;> simp

theorem splitLines_ne_nil (s : String) : splitLines s ≠ [] := by
  intro h
  exact splitOnNl_ne_nil s.data (List.map_eq_nil_iff.mp h)


/-- C2 (counterexample): a table block with an empty cell set does NOT
contribute zero output elements: the `tableData.length > 0` guard fails, so
the block falls through to the text branch and emits one empty text
paragraph — one element, not zero. -/
theorem emptyTable_emits_cex :
    (blockElements (fun _ _ => none) "img" emptyTableBlock).length = 1 ∧
    blockElements (fun _ _ => none) "img" emptyTableBlock =
      [DocElement.textPara
        { text := "", font := "Nirmala UI", size := 22, bold := false }
        Alignment.left 200] ∧
    generateDocx (fun _ _ => none)
        [{ pageNumber := 1, imageUrl := "img", blocks := [emptyTableBlock],
           width := 10, height := 10 }] true =
      some { sections := [{ children :=
        [DocElement.textPara
          { text := "", font := "Nirmala UI", size := 22, bold := false }
          Alignment.left 200] }] } :=
  ⟨rfl, rfl, rfl⟩

/-- C2 (amended): a table block with an empty (or missing) cell set never
crashes assembly and never emits a table element (in particular no zero-row
table), but it does not contribute zero elements: it is handled by the text
branch, contributing exactly one text paragraph per line of its text —
always at least one paragraph, possibly with empty text. -/
theorem emptyTable_text_fallthrough (crop : String → Box2d → Option String)
    (url : String) (block : OCRBlock)
    (hty : block.type = BlockType.table)
    (htd : block.tableData = some [] ∨ block.tableData = none) :
    blockElements crop url block = textElements block ∧
    (∀ e ∈ blockElements crop url block, ∀ rows, e ≠ DocElement.tableElem rows) ∧
    (blockElements crop url block).length = (splitLines block.text).length ∧
    blockElements crop url block ≠ [] := by
  have heq : blockElements crop url block = textElements block := by
    rcases htd with h | h <;>
      rw [blockElements, if_neg (by rw [hty]; intro hcon; cases hcon),
        if_neg (by rw [h]; simp)]
  refine ⟨heq, ?_, ?_, ?_⟩
  · rw [heq]
    intro e he rows
    simp only [textElements, List.mem_map] at he
    obtain ⟨p, -, hp⟩ := he
    rw [← hp]
    intro hcon
    cases hcon
  · rw [heq]
    simp [textElements]
  · rw [heq]
    intro hnil
    have := congrArg List.length hnil
    simp [textElements] at this
    exact splitLines_ne_nil block.text this

/-- C2 witness for the amended claim, at the concrete empty-cell-set table
block. -/
theorem emptyTable_text_fallthrough_witness :
    emptyTableBlock.type = BlockType.table ∧
    blockElements (fun _ _ => none) "img" emptyTableBlock =
      textElements emptyTableBlock ∧
    blockElements (fun _ _ => none) "img" emptyTableBlock ≠ [] := by
  obtain ⟨h1, -, -, h4⟩ :=
    emptyTable_text_fallthrough (fun _ _ => none) "img" emptyTableBlock rfl
      (Or.inl rfl)
  exact ⟨rfl, h1, h4⟩

/-- C8: every block `performOCR` returns has `isSelected = true`; a record
whose id is present and non-empty keeps it; a record without one (missing or
empty — the falsy cases) gets the generated id for its position, and, as
long as the generator produces distinct non-empty strings (the intent of
`Math.random().toString(36).substr(2, 9)`), every returned block has a
non-empty id and the generated ids of distinct records differ. -/
theorem performOCR_ingestion (gen : Nat → String) (raw : List RawBlock)
    (hgen : ∀ i, gen i ≠ "")
    (hinj : ∀ i j, i ≠ j → gen i ≠ gen j) :
    (ingestBlocks gen raw).length = raw.length ∧
    (∀ i b, raw[i]? = some b → ∃ blk, (ingestBlocks gen raw)[i]? = some blk ∧
      blk.isSelected = true ∧ blk.id ≠ "" ∧
      (∀ s, b.id = some s → s ≠ "" → blk.id = s) ∧
      ((b.id = none ∨ b.id = some "") → blk.id = gen i)) ∧
    (∀ (i j : Nat) (bi bj : RawBlock) (blki blkj : OCRBlock),
      raw[i]? = some bi → raw[j]? = some bj →
      (ingestBlocks gen raw)[i]? = some blki →
      (ingestBlocks gen raw)[j]? = some blkj →
      i ≠ j → (bi.id = none ∨ bi.id = some "") → (bj.id = none ∨ bj.id = some "") →
      blki.id ≠ blkj.id) := by
  have hget : ∀ (i : Nat) (b : RawBlock), raw[i]? = some b →
      (ingestBlocks gen raw)[i]? =
      some ({ id := ingestId gen i b, type := b.type, text := b.text,
              confidence := b.confidence, box_2d := b.box_2d,
              tableData := b.tableData, isBold := b.isBold,
              isSelected := true } : OCRBlock) := by
    intro i b hb
    unfold ingestBlocks
    rw [List.getElem?_map, List.getElem?_enum, hb]
    rfl
  have hid : ∀ i b, (b.id = none ∨ b.id = some "") → ingestId gen i b = gen i := by
    intro i b hb
    rcases hb with h | h <;> simp [ingestId, h]
  refine ⟨by simp [ingestBlocks], ?_, ?_⟩
  · intro i b hb
    refine ⟨_, hget i b hb, rfl, ?_, ?_, hid i b⟩
    · show ingestId gen i b ≠ ""
      unfold ingestId
      cases hbid : b.id with
      | none => exact hgen i
      | some s =>
        dsimp only
        by_cases hs : s = ""
        · rw [if_pos hs]
          exact hgen i
        · rw [if_neg hs]
          exact hs
    · intro s hbid hs
      show ingestId gen i b = s
      unfold ingestId
      rw [hbid]
      dsimp only
      rw [if_neg hs]
  · intro i j bi bj blki blkj hbi hbj hblki hblkj hij hfi hfj
    have h1 := hget i bi hbi
    have h2 := hget j bj hbj
    rw [hblki] at h1
    rw [hblkj] at h2
    have e1 : blki.id = gen i := by
      rw [Option.some.inj h1, hid i bi hfi]
    have e2 : blkj.id = gen j := by
      rw [Option.some.inj h2, hid j bj hfj]
    rw [e1, e2]
    exact hinj i j hij



/-- C8 witness: ingesting two concrete records, the id-less one comes out
selected with the generated id for position 1. -/
theorem performOCR_ingestion_witness :
    ∃ blk, (ingestBlocks genW rawW)[1]? = some blk ∧
      blk.isSelected = true ∧ blk.id = genW 1 := by
  have hgen : ∀ i, genW i ≠ "" := by
    intro i h
    have := congrArg String.data h
    simp [genW] at this
  have hinj : ∀ i j, i ≠ j → genW i ≠ genW j := by
    intro i j hij h
    have h2 : i + 1 = j + 1 := by
      simpa [genW] using congrArg (fun s => s.data.length) h
    exact hij (by omega)
  obtain ⟨blk, h1, h2, -, -, h5⟩ :=
    (performOCR_ingestion genW rawW hgen hinj).2.1 1 _ rfl
  exact ⟨blk, h1, h2, h5 (Or.inl rfl)⟩

end OmniLex
